import Mathlib

/-!
Verification of the transform engine of a browser PDF editor: rotation
accumulation, UI-percent to document-point coordinate conversion, page-range
resolution, page-number rendering, watermark anchor and tile placement,
under-layer content reordering, and the all-or-nothing failure behaviour of
the apply routines.  Every definition is a shallow embedding of the
corresponding page handler in the source; rational numbers stand for the
JavaScript floating-point values and `Int.tmod` stands for the JavaScript
remainder operator, which truncates toward zero and keeps the sign of the
dividend.
-/

namespace PdfEditor

/-! ## Rotation (rotate page handlers)

The rotate page keeps one accumulated delta per page in React state:
`handleRotateAll` / `handleRotatePage` update it with `(r + angle) % 360`
(JavaScript remainder).  On save, for each page with a nonzero accumulated
delta, the handler calls `setRotation(degrees(page.getRotation().angle +
rotation))` with no further normalization. -/

/-- JavaScript expression `(r + angle) % 360` used by `handleRotateAll` and
`handleRotatePage`; the JS remainder truncates toward zero, which is
`Int.tmod`. -/
def rotStep (r delta : Int) : Int := (r + delta).tmod 360

/-- Accumulated per-page rotation state after a sequence of rotate clicks,
starting from the initial fill value zero. -/
def rotState (deltas : List Int) : Int := List.foldl rotStep 0 deltas

/-- Rotation stored into the page on save: `handleSave` sets
`original + rotation` when the accumulated delta is nonzero and leaves the
page untouched otherwise. -/
def storedRotation (original : Int) (deltas : List Int) : Int :=
  if rotState deltas ≠ 0 then original + rotState deltas else original

/-! ## Coordinate conversion (crop page `handleDownload`) -/

/-- Rectangle; fields are either UI percentages or document points. -/
structure Rect where
  x : ℚ
  y : ℚ
  w : ℚ
  h : ℚ
deriving DecidableEq, Repr

/-- Percentage-to-points conversion done per page inside the crop page
`handleDownload` loop: `cropX = (x/100)*width`, `cropY = (y/100)*height`,
sizes likewise, and the vertical flip `pdfY = height - cropY - cropHeight`. -/
def toDocumentSpace (r : Rect) (pageWidth pageHeight : ℚ) : Rect :=
  let cropX := r.x / 100 * pageWidth
  let cropY := r.y / 100 * pageHeight
  let cropWidth := r.w / 100 * pageWidth
  let cropHeight := r.h / 100 * pageHeight
  { x := cropX, y := pageHeight - cropY - cropHeight, w := cropWidth, h := cropHeight }

/-- Modelled from the spec: the inverse direction `toUISpace` of the
CoordinateMapper is described in the spec but has no counterpart in the
source, which only converts UI percentages to document points.  It divides
by the page dimensions and flips the vertical axis back. -/
def toUISpace (d : Rect) (pageWidth pageHeight : ℚ) : Rect :=
  { x := d.x / pageWidth * 100
    y := (pageHeight - d.y - d.h) / pageHeight * 100
    w := d.w / pageWidth * 100
    h := d.h / pageHeight * 100 }

/-- Error taxonomy of the spec for coordinate conversion. -/
inductive GeomError where
  | invalidGeometry
deriving DecidableEq

/-- Modelled from the spec: a CoordinateMapper that fails with
InvalidGeometry when the page width or height is non-positive.  The source
has no such check; its conversion computes unconditionally. -/
def toDocumentSpaceChecked (r : Rect) (pageWidth pageHeight : ℚ) :
    Except GeomError Rect :=
  if pageWidth ≤ 0 ∨ pageHeight ≤ 0 then .error .invalidGeometry
  else .ok (toDocumentSpace r pageWidth pageHeight)

/-! ## Page ranges

All three transform pages resolve a 1-indexed `{from, to}` range against the
document page count.  `to` is a nullable number tested with JavaScript
truthiness, so both `null` and `0` select the document tail. -/

/-- Start index `Math.max(0, fromPage - 1)` shared by all three handlers. -/
def startIdx (fromPage : Int) : Int := max 0 (fromPage - 1)

/-- Inclusive end index of the watermark and crop handlers:
`endPage ? Math.min(pages.length - 1, endPage - 1) : pages.length - 1`. -/
def wmEndIdx (endPage : Option Int) (total : Nat) : Int :=
  match endPage with
  | some t => if t ≠ 0 then min ((total : Int) - 1) (t - 1) else (total : Int) - 1
  | none => (total : Int) - 1

/-- Exclusive end index of the page-number handler:
`toPage ? Math.min(total, toPage) : total`. -/
def pnEndIdx (toPage : Option Int) (total : Nat) : Int :=
  match toPage with
  | some t => if t ≠ 0 then min (total : Int) t else (total : Int)
  | none => (total : Int)

/-- Ascending integers from `s` to `e` inclusive; empty when `e < s`. -/
def intRange (s e : Int) : List Int :=
  (List.range (e - s + 1).toNat).map (fun i : Nat => s + (i : Int))

/-- Target indices of `applyWatermark`: the loop `for (i = startIdx; i <=
endIdx; i++)` guarded by `if (endIdx >= startIdx)`. -/
def resolveRange (fromPage : Int) (endPage : Option Int) (total : Nat) : List Int :=
  if startIdx fromPage ≤ wmEndIdx endPage total then
    intRange (startIdx fromPage) (wmEndIdx endPage total)
  else []

/-- Target indices of the crop `handleDownload` loop, which runs `for (i =
startIdx; i <= endIdx; i++)` with no explicit emptiness guard. -/
def cropTargets (fromPage : Int) (endPage : Option Int) (total : Nat) : List Int :=
  intRange (startIdx fromPage) (wmEndIdx endPage total)

/-- Target indices of `applyPageNumbers`: `Array.from({length: endIdx -
startIdx}, (_, i) => startIdx + i)`; a non-positive length yields `[]`. -/
def pnTargets (fromPage : Int) (toPage : Option Int) (total : Nat) : List Int :=
  (List.range (pnEndIdx toPage total - startIdx fromPage).toNat).map
    (fun i : Nat => startIdx fromPage + (i : Int))

/-! ## Page-number text (`applyPageNumbers`) -/

/-- The four format choices of the page-number page. -/
inductive PnFormat where
  | justN
  | nOfTotal
  | pageN
  | pageNOfTotal
deriving DecidableEq

/-- Sequence number drawn on page `pageIdx`:
`numberVal = startFrom + (pageIdx - startIdx)`. -/
def pnNumberVal (startFrom pageIdx fromPage : Int) : Int :=
  startFrom + (pageIdx - startIdx fromPage)

/-- Text produced by the `switch (currentSettings.format)` statement; `total`
is `pages.length`, the page count of the whole document. -/
def pnText (fmt : PnFormat) (numberVal : Int) (total : Nat) : String :=
  match fmt with
  | .justN => toString numberVal
  | .nOfTotal => toString numberVal ++ " of " ++ toString total
  | .pageN => "Page " ++ toString numberVal
  | .pageNOfTotal => "Page " ++ toString numberVal ++ " of " ++ toString total

/-- Page index paired with the text drawn on it, over the resolved range of
one `applyPageNumbers` call. -/
def pnRendered (fromPage : Int) (toPage : Option Int) (total : Nat)
    (startFrom : Int) (fmt : PnFormat) : List (Int × String) :=
  (pnTargets fromPage toPage total).map
    (fun i => (i, pnText fmt (pnNumberVal startFrom i fromPage) total))

/-! ## Anchor placement -/

/-- The nine watermark positions, two-letter compass codes. -/
inductive WmPosition where
  | tl | tc | tr | cl | cc | cr | bl | bc | br
deriving DecidableEq

/-- Test mirroring `position.includes('l')`. -/
def hasL : WmPosition → Bool
  | .tl | .cl | .bl => true
  | _ => false

/-- Test mirroring `position.includes('r')`. -/
def hasR : WmPosition → Bool
  | .tr | .cr | .br => true
  | _ => false

/-- Test mirroring `position.includes('t')`. -/
def hasT : WmPosition → Bool
  | .tl | .tc | .tr => true
  | _ => false

/-- Test mirroring `position.includes('b')`. -/
def hasB : WmPosition → Bool
  | .bl | .bc | .br => true
  | _ => false

/-- Horizontal anchor of `applyWatermark`: starts from the centered value and
is overridden by the `includes('l')` / `includes('r')` checks. -/
def wmAnchorX (pos : WmPosition) (pageWidth elemW margin : ℚ) : ℚ :=
  let x := (pageWidth - elemW) / 2
  let x := if hasL pos then margin else x
  let x := if hasR pos then pageWidth - elemW - margin else x
  x

/-- Vertical anchor of `applyWatermark`: starts from the centered value and
is overridden by the `includes('t')` / `includes('b')` checks. -/
def wmAnchorY (pos : WmPosition) (pageHeight elemH margin : ℚ) : ℚ :=
  let y := (pageHeight - elemH) / 2
  let y := if hasT pos then pageHeight - elemH - margin else y
  let y := if hasB pos then margin else y
  y

/-- The six positions offered by the page-number page. -/
inductive PnPosition where
  | tl | tc | tr | bl | bc | br
deriving DecidableEq

/-- Embeds page-number positions into the watermark position type. -/
def pnToWm : PnPosition → WmPosition
  | .tl => .tl
  | .tc => .tc
  | .tr => .tr
  | .bl => .bl
  | .bc => .bc
  | .br => .br

/-- Horizontal placement of `applyPageNumbers`: `includes('l')`,
`includes('c')`, otherwise right. -/
def pnAnchorX (pos : PnPosition) (pageWidth textWidth margin : ℚ) : ℚ :=
  match pos with
  | .tl | .bl => margin
  | .tc | .bc => (pageWidth - textWidth) / 2
  | .tr | .br => pageWidth - margin - textWidth

/-- Vertical placement of `applyPageNumbers`: `startsWith('t')` selects the
top band, otherwise the bottom margin. -/
def pnAnchorY (pos : PnPosition) (pageHeight textHeight margin : ℚ) : ℚ :=
  match pos with
  | .tl | .tc | .tr => pageHeight - margin - textHeight
  | .bl | .bc | .br => margin

/-! ## Tiling (`applyWatermark`) -/

/-- Cell centers of the 3 by 3 tile grid, in the order produced by the
nested loops `for (ix = 0; ix < 3; ix++) for (iy = 0; iy < 3; iy++)` with
`cx = width * ((ix * 2 + 1) / 6)` and `cy = height * ((iy * 2 + 1) / 6)`. -/
def tileCenters (pageWidth pageHeight : ℚ) : List (ℚ × ℚ) :=
  (List.range 3).flatMap (fun ix : Nat =>
    (List.range 3).map (fun iy : Nat =>
      (pageWidth * (((ix : ℚ) * 2 + 1) / 6), pageHeight * (((iy : ℚ) * 2 + 1) / 6))))

/-- Origins at which the tiled text watermark is drawn:
`drawTextAt(cx - textWidth / 2, cy - textHeight / 3)`. -/
def textTileOrigins (pageWidth pageHeight textWidth textHeight : ℚ) : List (ℚ × ℚ) :=
  (tileCenters pageWidth pageHeight).map
    (fun c => (c.1 - textWidth / 2, c.2 - textHeight / 3))

/-- Origins at which the tiled image watermark (and its preview placeholder)
is drawn: `drawImageAt(cx - imgW / 2, cy - imgH / 2)`. -/
def imageTileOrigins (pageWidth pageHeight imgW imgH : ℚ) : List (ℚ × ℚ) :=
  (tileCenters pageWidth pageHeight).map
    (fun c => (c.1 - imgW / 2, c.2 - imgH / 2))

/-! ## Content layering (`applyWatermark`, layer = under) -/

/-- Contents entry of a page dictionary: either a single stream or an array
of streams, as distinguished by the `instanceof PDFArray` test. -/
inductive PDFContents (α : Type) where
  | stream (s : α)
  | array (entries : List α)
deriving DecidableEq

/-- Under-layer reordering: when Contents is an array and `lastIdx =
size - 1 > 0`, the last entry is removed and inserted at index 0; a single
stream, or an array with at most one entry, is left untouched. -/
def moveLastUnder {α : Type} : PDFContents α → PDFContents α
  | .stream s => .stream s
  | .array entries =>
      if 2 ≤ entries.length then
        .array (entries.getLast?.toList ++ entries.dropLast)
      else
        .array entries

/-! ## Apply control flow

`applyWatermark` and `applyPageNumbers` wrap their whole body in one
try/catch and return `null` from the catch.  Inside, the watermark routine
additionally catches image-embed failures (retrying with the other decoder,
then giving up and drawing nothing) and processes each target page: draw,
then the under-layer reorder.  The models below keep the fallible steps as
`Except` values and the caller-visible result as an `Option`. -/

/-- Watermark kind switch. -/
inductive WmKind where
  | text
  | image
deriving DecidableEq

/-- The over / under layer switch. -/
inductive WmLayer where
  | over
  | under
deriving DecidableEq

/-- Image embedding with the fallback decoder: try the first embed, on an
exception try the second, on a second exception log and keep `null`. -/
def embedWithFallback {ε ι : Type} (embed1 embed2 : Except ε ι) : Option ι :=
  match embed1 with
  | .ok i => some i
  | .error _ =>
      match embed2 with
      | .ok i => some i
      | .error _ => none

/-- Embedded image available to the page loop: text watermarks never embed,
image watermarks use the fallback chain. -/
def wmEmbedded {ε ι : Type} (kind : WmKind) (embed1 embed2 : Except ε ι) : Option ι :=
  match kind with
  | .text => none
  | .image => embedWithFallback embed1 embed2

/-- Reorder step guarded by `if (currentSettings.layer === 'under')`. -/
def applyLayer {π : Type} (layer : WmLayer) (reorder : π → π) (p : π) : π :=
  match layer with
  | .over => p
  | .under => reorder p

/-- One iteration of the watermark page loop: text pages draw, image pages
draw only when an image was embedded, and the under-layer reorder always
runs afterwards; a thrown draw error propagates. -/
def wmProcessPage {ε ι π : Type} (kind : WmKind) (embedded : Option ι)
    (draw : π → Except ε π) (reorder : π → π) (layer : WmLayer) (p : π) :
    Except ε π :=
  match kind, embedded with
  | .text, _ => (draw p).map (applyLayer layer reorder)
  | .image, some _ => (draw p).map (applyLayer layer reorder)
  | .image, none => .ok (applyLayer layer reorder p)

/-- Sequential page loop starting at index `i`: the first thrown error
aborts the remainder. -/
def mutatePagesFrom {ε π : Type} (g : Nat → π → Except ε π) :
    Nat → List π → Except ε (List π)
  | _, [] => .ok []
  | i, p :: ps =>
      match g i p with
      | .error e => .error e
      | .ok q =>
          match mutatePagesFrom g (i + 1) ps with
          | .error e => .error e
          | .ok qs => .ok (q :: qs)

/-- Per-index step: pages outside the target set are left untouched. -/
def targetStep {ε π : Type} (targets : List Int) (proc : Nat → π → Except ε π)
    (i : Nat) (p : π) : Except ε π :=
  if (i : Int) ∈ targets then proc i p else .ok p

/-- Caller-visible result of one final (non-preview) `applyWatermark` call:
`none` models the `null` returned from the outer catch, `some` the saved
document. -/
def applyWatermarkRun {ε ι π : Type} (load : Except ε (List π)) (kind : WmKind)
    (embed1 embed2 : Except ε ι) (draw : π → Except ε π) (reorder : π → π)
    (layer : WmLayer) (fromPage : Int) (endPage : Option Int) : Option (List π) :=
  match load with
  | .error _ => none
  | .ok pages =>
      let targets := resolveRange fromPage endPage pages.length
      match mutatePagesFrom
          (targetStep targets
            (fun _ p => wmProcessPage kind (wmEmbedded kind embed1 embed2) draw reorder layer p))
          0 pages with
      | .error _ => none
      | .ok qs => some qs

/-- Caller-visible result of one final (non-preview) `applyPageNumbers`
call: load, then the font embed, then the target-page draw loop; any thrown
error reaches the outer catch and yields `null`. -/
def applyPageNumbersRun {ε φ π : Type} (load : Except ε (List π))
    (embedFont : Except ε φ) (draw : φ → Nat → π → Except ε π)
    (fromPage : Int) (toPage : Option Int) : Option (List π) :=
  match load with
  | .error _ => none
  | .ok pages =>
      match embedFont with
      | .error _ => none
      | .ok font =>
          let targets := pnTargets fromPage toPage pages.length
          match mutatePagesFrom (targetStep targets (draw font)) 0 pages with
          | .error _ => none
          | .ok qs => some qs

/-! ## Helper lemmas -/

/-- The truncating remainder negates with its dividend. -/
theorem tmod_neg_arg (a b : Int) : (-a).tmod b = -(a.tmod b) := by
  rw [Int.tmod_def, Int.tmod_def, Int.neg_tdiv]
  ring

/-- Lower bound of the truncating remainder by 360. -/
theorem neg_lt_tmod360 (a : Int) : -360 < a.tmod 360 := by
  rcases le_or_lt 0 a with h | h
  · have := Int.tmod_nonneg (a := a) 360 h
    omega
  · have h1 : (-a).tmod 360 < 360 := Int.tmod_lt_of_pos (-a) (by norm_num)
    rw [tmod_neg_arg] at h1
    omega

/-- The truncating remainder agrees with the Euclidean remainder mod 360. -/
theorem tmod_emod360 (a : Int) : a.tmod 360 % 360 = a % 360 := by
  rw [Int.tmod_def, Int.sub_emod, Int.mul_emod_right]
  simp [Int.sub_emod]

/-- The accumulated rotation state stays congruent to the plain sum of the
deltas, whatever the starting accumulator. -/
theorem foldl_rotStep_emod (deltas : List Int) :
    ∀ r : Int, List.foldl rotStep r deltas % 360 = (r + deltas.sum) % 360 := by
  induction deltas with
  | nil => intro r; simp
  | cons d ds ih =>
      intro r
      rw [List.foldl_cons, ih, List.sum_cons]
      show ((r + d).tmod 360 + ds.sum) % 360 = _
      rw [Int.add_emod, tmod_emod360, ← Int.add_emod, add_assoc]

/-- The accumulated rotation state stays strictly between -360 and 360. -/
theorem foldl_rotStep_bounds (deltas : List Int) :
    ∀ r : Int, -360 < r → r < 360 →
      -360 < List.foldl rotStep r deltas ∧ List.foldl rotStep r deltas < 360 := by
  induction deltas with
  | nil => intro r h1 h2; exact ⟨h1, h2⟩
  | cons d ds ih =>
      intro r _ _
      rw [List.foldl_cons]
      exact ih (rotStep r d) (neg_lt_tmod360 _) (Int.tmod_lt_of_pos _ (by norm_num))

/-- Saving with a zero accumulated delta skips `setRotation` but stores the
same value either way. -/
theorem storedRotation_eq (original : Int) (deltas : List Int) :
    storedRotation original deltas = original + rotState deltas := by
  unfold storedRotation
  split
  · rfl
  · omega

/-- Round trip of the two coordinate conversions, exact over the rationals. -/
theorem roundtrip_aux (r : Rect) (pw ph : ℚ) (hw : pw ≠ 0) (hh : ph ≠ 0) :
    toUISpace (toDocumentSpace r pw ph) pw ph = r := by
  obtain ⟨x, y, w, h⟩ := r
  simp only [toDocumentSpace, toUISpace, Rect.mk.injEq]
  refine ⟨?_, ?_, ?_, ?_⟩ <;> field_simp <;> ring

/-- Membership of the inclusive integer range. -/
theorem mem_intRange (s e x : Int) : x ∈ intRange s e ↔ s ≤ x ∧ x ≤ e := by
  simp only [intRange, List.mem_map, List.mem_range]
  constructor
  · rintro ⟨i, hi, rfl⟩
    omega
  · rintro ⟨h1, h2⟩
    exact ⟨(x - s).toNat, by omega, by omega⟩

/-- The inclusive integer range is strictly sorted. -/
theorem intRange_sorted (s e : Int) : List.Sorted (· < ·) (intRange s e) :=
  List.Pairwise.map (fun i : Nat => s + (i : Int))
    (fun a b hab => show s + (a : Int) < s + (b : Int) by omega)
    (List.pairwise_lt_range _)

/-- An inverted inclusive range is empty. -/
theorem intRange_of_lt {s e : Int} (h : e < s) : intRange s e = [] := by
  simp [intRange, Int.toNat_of_nonpos (show e - s + 1 ≤ 0 by omega)]

/-- The crop loop visits exactly the watermark target indices: with no
emptiness guard, an inverted range simply iterates zero times. -/
theorem cropTargets_eq_resolveRange (f : Int) (toP : Option Int) (total : Nat) :
    cropTargets f toP total = resolveRange f toP total := by
  unfold cropTargets resolveRange
  split
  · rfl
  · exact intRange_of_lt (by omega)

/-- The exclusive page-number end index sits one above the inclusive
watermark end index. -/
theorem pnEndIdx_eq (toP : Option Int) (total : Nat) :
    pnEndIdx toP total = wmEndIdx toP total + 1 := by
  cases toP with
  | none => simp [pnEndIdx, wmEndIdx]
  | some t =>
      simp only [pnEndIdx, wmEndIdx]
      split
      · omega
      · omega

/-- The page-number loop visits exactly the watermark target indices. -/
theorem pnTargets_eq_resolveRange (f : Int) (toP : Option Int) (total : Nat) :
    pnTargets f toP total = resolveRange f toP total := by
  have h : pnTargets f toP total = intRange (startIdx f) (wmEndIdx toP total) := by
    have hn : (pnEndIdx toP total - startIdx f).toNat =
        (wmEndIdx toP total - startIdx f + 1).toNat := by
      rw [pnEndIdx_eq]
      omega
    simp only [pnTargets, intRange, hn]
  rw [h]
  unfold resolveRange
  split
  · rfl
  · exact intRange_of_lt (by omega)

/-! ## Claims -/

/-- C1, claim as stated is refuted: a single -90 delta on an unrotated page
stores -90, which is negative and differs from the normalized value
`(0 + -90) mod 360 = 270` the claim requires. -/
theorem rotation_claim_counterexample :
    storedRotation 0 [-90] = -90 ∧ storedRotation 0 [-90] < 0 ∧
      ((0 : Int) + -90) % 360 = 270 := by
  decide

/-- C1 (amended): the stored rotation equals the original rotation plus the
left fold of the JavaScript remainder step over the deltas; it is congruent
to `original + sum of deltas` mod 360 and the accumulated state lies
strictly between -360 and 360, but it is not normalized into [0, 360):
five +90 deltas on an unrotated page do store 90, while a single -90 delta
stores -90. -/
theorem rotation_effective_amended (original : Int) (deltas : List Int) :
    storedRotation original deltas = original + rotState deltas ∧
    storedRotation original deltas % 360 = (original + deltas.sum) % 360 ∧
    -360 < rotState deltas ∧ rotState deltas < 360 ∧
    storedRotation 0 (List.replicate 5 90) = 90 ∧
    storedRotation 0 [-90] = -90 := by
  have hb := foldl_rotStep_bounds deltas 0 (by norm_num) (by norm_num)
  refine ⟨storedRotation_eq original deltas, ?_, hb.1, hb.2, by decide, by decide⟩
  rw [storedRotation_eq]
  rw [Int.add_emod original (rotState deltas), rotState, foldl_rotStep_emod]
  rw [Int.zero_add, ← Int.add_emod]

/-- C2: the crop conversion computes `docX = (uiX/100)*pageWidth`,
`docY = pageHeight - (uiY/100)*pageHeight - docHeight` with sizes scaled by
`pageWidth/100` and `pageHeight/100`, and for positive page dimensions the
spec-modelled inverse returns the original UI rectangle exactly, hence
within any tolerance. -/
theorem coordinate_conversion_roundtrip (r : Rect) (pw ph : ℚ)
    (hw : 0 < pw) (hh : 0 < ph) :
    toDocumentSpace r pw ph =
      ⟨r.x / 100 * pw, ph - r.y / 100 * ph - r.h / 100 * ph,
        r.w / 100 * pw, r.h / 100 * ph⟩ ∧
    toUISpace (toDocumentSpace r pw ph) pw ph = r := by
  exact ⟨rfl, roundtrip_aux r pw ph (ne_of_gt hw) (ne_of_gt hh)⟩

/-- C3: for a 1-indexed range, resolution yields the ordered 0-indexed set
from `max(0, from - 1)` through `min(totalPages - 1, to - 1)` (or
`totalPages - 1` when `to` is null); an inverted clamped range is empty and
raises nothing; the page-number and crop loops visit the same indices; and
the three concrete examples of the spec hold. -/
theorem range_resolution (f : Int) (toP : Option Int) (total : Nat)
    (hto : ∀ t, toP = some t → 1 ≤ t) :
    (∀ x : Int, x ∈ resolveRange f toP total ↔
      max 0 (f - 1) ≤ x ∧
        x ≤ toP.elim ((total : Int) - 1) (fun t => min ((total : Int) - 1) (t - 1))) ∧
    List.Sorted (· < ·) (resolveRange f toP total) ∧
    pnTargets f toP total = resolveRange f toP total ∧
    cropTargets f toP total = resolveRange f toP total ∧
    resolveRange 5 (some 3) 10 = [] ∧
    resolveRange 1 none 7 = [0, 1, 2, 3, 4, 5, 6] ∧
    resolveRange 3 (some 100) 5 = [2, 3, 4] := by
  have he : wmEndIdx toP total =
      toP.elim ((total : Int) - 1) (fun t => min ((total : Int) - 1) (t - 1)) := by
    cases toP with
    | none => rfl
    | some t =>
        have h1 := hto t rfl
        simp only [wmEndIdx, Option.elim]
        rw [if_pos (by omega)]
  rw [← he]
  refine ⟨?_, ?_, pnTargets_eq_resolveRange f toP total,
    cropTargets_eq_resolveRange f toP total, by decide, by decide, by decide⟩
  · intro x
    unfold resolveRange
    split
    · exact mem_intRange _ _ _
    next h =>
      simp only [List.not_mem_nil, false_iff, not_and, not_le]
      intro hx
      simp only [startIdx] at h
      omega
  · unfold resolveRange
    split
    · exact intRange_sorted _ _
    · exact List.sorted_nil

/-- C3 witness: instantiation at the range 2..4 of a 10-page document. -/
theorem range_resolution_witness :
    pnTargets 2 (some 4) 10 = resolveRange 2 (some 4) 10 :=
  (range_resolution 2 (some 4) 10
    (fun t ht => by injection ht with h; omega)).2.2.1

/-- C10: an end field equal to 0 is treated like null by the JavaScript
truthiness test in all three handlers, so the resolved target set runs to
the document's final page instead of being empty or erroring. -/
theorem zero_end_means_last (f : Int) (total : Nat)
    (h1 : 1 ≤ f) (h2 : f ≤ (total : Int)) :
    resolveRange f (some 0) total = resolveRange f none total ∧
    pnTargets f (some 0) total = pnTargets f none total ∧
    cropTargets f (some 0) total = cropTargets f none total ∧
    ((total : Int) - 1) ∈ resolveRange f (some 0) total := by
  have hw : wmEndIdx (some 0) total = wmEndIdx none total := by
    simp [wmEndIdx]
  have hs : startIdx f ≤ wmEndIdx (some 0) total := by
    simp only [startIdx, wmEndIdx, if_neg (by omega : ¬ (0 : Int) ≠ 0)]
    omega
  refine ⟨?_, ?_, ?_, ?_⟩
  · simp [resolveRange, hw]
  · simp [pnTargets, pnEndIdx_eq, hw]
  · simp [cropTargets, hw]
  · rw [resolveRange, if_pos hs, mem_intRange]
    constructor
    · simp only [startIdx]
      omega
    · simp only [wmEndIdx, if_neg (by omega : ¬ (0 : Int) ≠ 0)]
      omega

/-- C10 witness: a 0 end field on a 3-page document, from page 1. -/
theorem zero_end_means_last_witness :
    resolveRange 1 (some 0) 3 = resolveRange 1 none 3 :=
  (zero_end_means_last 1 3 (by norm_num) (by norm_num)).1

/-- C2 witness: round trip at a concrete letter-size page. -/
theorem coordinate_conversion_roundtrip_witness :
    toUISpace (toDocumentSpace ⟨10, 10, 80, 80⟩ 612 792) 612 792 = ⟨10, 10, 80, 80⟩ :=
  (coordinate_conversion_roundtrip ⟨10, 10, 80, 80⟩ 612 792
    (by norm_num) (by norm_num)).2

/-- C4: every numbered page displays `startValue + (pageIndex - rangeStart)`
and the total in "of T" formats is the document page count; for range 2..5
with start value 1 the pages get 1, 2, 3, 4, and the first page of that
range on a 20-page document renders "Page 1 of 20". -/
theorem page_numbering (f : Int) (toP : Option Int) (total : Nat)
    (startFrom : Int) (fmt : PnFormat) :
    pnRendered f toP total startFrom fmt =
      (pnTargets f toP total).map
        (fun i => (i, pnText fmt (startFrom + (i - max 0 (f - 1))) total)) ∧
    (pnTargets 2 (some 5) 20).map (fun i => pnNumberVal 1 i 2) = [1, 2, 3, 4] ∧
    pnRendered 2 (some 5) 20 1 .pageNOfTotal =
      [(1, "Page 1 of 20"), (2, "Page 2 of 20"),
       (3, "Page 3 of 20"), (4, "Page 4 of 20")] :=
  ⟨rfl, by decide, by decide⟩

/-- C5, claim as stated is refuted: on a 300 by 300 page, a text element of
size 60 by 30 is tiled with its origin at cell center minus (width / 2,
height / 3), so the first mark lands at (20, 40), not at the claimed center
minus half size (20, 35). -/
theorem tile_offset_counterexample :
    (textTileOrigins 300 300 60 30).head? = some (20, 40) ∧
      ((20 : ℚ), (40 : ℚ)) ≠ ((50 : ℚ) - 60 / 2, (50 : ℚ) - 30 / 2) := by
  constructor
  · simp only [textTileOrigins, tileCenters, List.range_succ]
    norm_num
  · simp only [ne_eq, Prod.mk.injEq, not_and]
    intro h
    norm_num

/-- C5 (amended): tiled placement always draws exactly 9 marks whose cell
centers are `(pageWidth * (2k+1)/6, pageHeight * (2k+1)/6)` for k in 0..2,
iterated outer-x inner-y (for a 300 by 300 page the centers are
{50,150,250} squared); an image mark's origin is the cell center minus half
the element size on both axes, while a text mark's origin is the center
minus (width / 2, height / 3). -/
theorem tiling_amended (pw ph ew eh : ℚ) :
    tileCenters pw ph =
      [(pw * (1 / 6), ph * (1 / 6)), (pw * (1 / 6), ph * (3 / 6)), (pw * (1 / 6), ph * (5 / 6)),
       (pw * (3 / 6), ph * (1 / 6)), (pw * (3 / 6), ph * (3 / 6)), (pw * (3 / 6), ph * (5 / 6)),
       (pw * (5 / 6), ph * (1 / 6)), (pw * (5 / 6), ph * (3 / 6)), (pw * (5 / 6), ph * (5 / 6))] ∧
    (tileCenters pw ph).length = 9 ∧
    tileCenters 300 300 =
      [(50, 50), (50, 150), (50, 250), (150, 50), (150, 150), (150, 250),
       (250, 50), (250, 150), (250, 250)] ∧
    textTileOrigins pw ph ew eh =
      (tileCenters pw ph).map (fun c => (c.1 - ew / 2, c.2 - eh / 3)) ∧
    imageTileOrigins pw ph ew eh =
      (tileCenters pw ph).map (fun c => (c.1 - ew / 2, c.2 - eh / 2)) ∧
    imageTileOrigins 300 300 60 30 =
      [(20, 35), (20, 135), (20, 235), (120, 35), (120, 135), (120, 235),
       (220, 35), (220, 135), (220, 235)] := by
  refine ⟨?_, rfl, ?_, rfl, rfl, ?_⟩
  · simp only [tileCenters, List.range_succ]
    norm_num
  · simp only [tileCenters, List.range_succ]
    norm_num
  · simp only [imageTileOrigins, tileCenters, List.range_succ]
    norm_num

/-- C6: anchor resolution uses left = margin, center = (pageWidth - w)/2,
right = pageWidth - w - margin, top = pageHeight - h - margin, bottom =
margin; whenever the element fits with the margin on both sides, the
resolved rectangle stays inside [margin, pageSize - margin] on both axes,
for every one of the nine anchors; and the page-number placement agrees
with the watermark placement on the six positions both offer. -/
theorem anchor_resolution (pos : WmPosition) (pw ph ew eh m : ℚ)
    (hw : ew ≤ pw - 2 * m) (hh : eh ≤ ph - 2 * m) :
    (m ≤ wmAnchorX pos pw ew m ∧ wmAnchorX pos pw ew m + ew ≤ pw - m ∧
     m ≤ wmAnchorY pos ph eh m ∧ wmAnchorY pos ph eh m + eh ≤ ph - m) ∧
    (wmAnchorX .cl pw ew m = m ∧ wmAnchorX .cc pw ew m = (pw - ew) / 2 ∧
     wmAnchorX .cr pw ew m = pw - ew - m ∧
     wmAnchorY .tc ph eh m = ph - eh - m ∧ wmAnchorY .cc ph eh m = (ph - eh) / 2 ∧
     wmAnchorY .bc ph eh m = m) ∧
    (∀ q : PnPosition, pnAnchorX q pw ew m = wmAnchorX (pnToWm q) pw ew m ∧
       pnAnchorY q ph eh m = wmAnchorY (pnToWm q) ph eh m) := by
  refine ⟨?_, ⟨rfl, rfl, rfl, rfl, rfl, rfl⟩, ?_⟩
  · cases pos <;> refine ⟨?_, ?_, ?_, ?_⟩ <;>
      simp only [wmAnchorX, wmAnchorY, hasL, hasR, hasT, hasB,
        if_true, if_false, Bool.false_eq_true, ite_true, ite_false] <;>
      linarith
  · intro q
    cases q <;>
      exact ⟨by simp only [pnAnchorX, wmAnchorX, pnToWm, hasL, hasR,
          if_true, if_false, Bool.false_eq_true, ite_true, ite_false] <;> ring,
        by simp only [pnAnchorY, wmAnchorY, pnToWm, hasT, hasB,
          if_true, if_false, Bool.false_eq_true, ite_true, ite_false] <;> ring⟩

/-- C6 witness: the centered anchor on a 100 by 100 page with a 20 by 20
element and a 20-point margin. -/
theorem anchor_resolution_witness :
    (20 : ℚ) ≤ wmAnchorX .cc 100 20 20 ∧ wmAnchorX .cc 100 20 20 + 20 ≤ 100 - 20 ∧
      (20 : ℚ) ≤ wmAnchorY .cc 100 20 20 ∧ wmAnchorY .cc 100 20 20 + 20 ≤ 100 - 20 :=
  (anchor_resolution .cc 100 100 20 20 20 (by norm_num) (by norm_num)).1

/-- Success of the sequential page loop determines every per-page step. -/
theorem mutatePagesFrom_ok {ε π : Type} (g : Nat → π → Except ε π) :
    ∀ (ps : List π) (i : Nat) (qs : List π),
      mutatePagesFrom g i ps = .ok qs →
      qs.length = ps.length ∧
        ∀ (j : Nat) (p q : π), ps[j]? = some p → qs[j]? = some q →
          g (i + j) p = .ok q := by
  intro ps
  induction ps with
  | nil =>
      intro i qs h
      simp only [mutatePagesFrom, Except.ok.injEq] at h
      subst h
      simp
  | cons p0 ps ih =>
      intro i qs h
      simp only [mutatePagesFrom] at h
      cases hg : g i p0 with
      | error e => rw [hg] at h; exact absurd h (by simp)
      | ok q0 =>
          rw [hg] at h
          cases hrest : mutatePagesFrom g (i + 1) ps with
          | error e => rw [hrest] at h; exact absurd h (by simp)
          | ok qs0 =>
              rw [hrest] at h
              simp only [Except.ok.injEq] at h
              subst h
              obtain ⟨hlen, hall⟩ := ih (i + 1) qs0 hrest
              refine ⟨by simp [hlen], ?_⟩
              intro j p q hp hq
              cases j with
              | zero =>
                  simp only [List.getElem?_cons_zero, Option.some.injEq] at hp hq
                  subst hp
                  subst hq
                  simpa using hg
              | succ j =>
                  simp only [List.getElem?_cons_succ] at hp hq
                  have h1 := hall j p q hp hq
                  rwa [show i + 1 + j = i + (j + 1) by omega] at h1

/-- A failing step on any visited page makes the sequential loop fail. -/
theorem mutatePagesFrom_error {ε π : Type} (g : Nat → π → Except ε π) :
    ∀ (ps : List π) (i j : Nat) (p : π) (e : ε),
      ps[j]? = some p → g (i + j) p = .error e →
      ∃ e2, mutatePagesFrom g i ps = .error e2 := by
  intro ps
  induction ps with
  | nil => intro i j p e hp; simp at hp
  | cons p0 ps ih =>
      intro i j p e hp hg
      cases j with
      | zero =>
          simp only [List.getElem?_cons_zero, Option.some.injEq] at hp
          subst hp
          rw [Nat.add_zero] at hg
          exact ⟨e, by simp [mutatePagesFrom, hg]⟩
      | succ j =>
          simp only [List.getElem?_cons_succ] at hp
          cases hg0 : g i p0 with
          | error e0 => exact ⟨e0, by simp [mutatePagesFrom, hg0]⟩
          | ok q0 =>
              obtain ⟨e2, h2⟩ := ih (i + 1) j p e hp
                (by rwa [show i + 1 + j = i + (j + 1) by omega])
              exact ⟨e2, by simp [mutatePagesFrom, hg0, h2]⟩

/-- C7: under-layering on a content array with more than one entry moves
the most recently appended entry from the end to index 0; on a single
monolithic stream, or a one-entry array, it is a silent no-op, and a full
apply over such a page still succeeds with the content order unaffected. -/
theorem under_layering {α : Type} (s : α) (entries : List α)
    (h2 : 2 ≤ entries.length) :
    moveLastUnder (PDFContents.array entries) =
      PDFContents.array (entries.getLast?.toList ++ entries.dropLast) ∧
    (∀ e : α, moveLastUnder (PDFContents.array [e]) = PDFContents.array [e]) ∧
    moveLastUnder (PDFContents.stream s) = PDFContents.stream s ∧
    applyWatermarkRun (ε := Unit) (ι := Unit) (Except.ok [PDFContents.stream s])
        .text (Except.error ()) (Except.error ()) (fun p => Except.ok p)
        moveLastUnder .under 1 none =
      some [PDFContents.stream s] := by
  refine ⟨?_, ?_, rfl, rfl⟩
  · simp [moveLastUnder, if_pos h2]
  · intro e
    simp [moveLastUnder]

/-- C7 witness: a two-entry content array. -/
theorem under_layering_witness :
    moveLastUnder (PDFContents.array [7, 8]) =
      PDFContents.array ([7, 8].getLast?.toList ++ [7, 8].dropLast) :=
  (under_layering (0 : Nat) [7, 8] (by norm_num)).1

/-- C8, claim as stated is refuted: with an image watermark whose embed step
throws in both attempts, the apply does not return the failure result; it
saves and returns a document in which the under-layer reorder was still
applied (the page 0 became 100) although no mark was drawn. -/
theorem apply_failure_counterexample :
    embedWithFallback (ε := Unit) (ι := Unit) (Except.error ()) (Except.error ()) = none ∧
    applyWatermarkRun (ε := Unit) (ι := Unit) (π := Nat) (Except.ok [0]) .image
        (Except.error ()) (Except.error ()) (fun p => Except.ok (p + 1))
        (fun p => p + 100) .under 1 none =
      some [100] :=
  ⟨rfl, rfl⟩

/-- C8 (amended): a document load failure, a font embed failure, or a
per-page draw error on any target page makes the whole apply return the
failure result, and any returned document is completely transformed (every
page is the successful per-page result of its input page); only a watermark
image-embed failure is swallowed, in which case the apply continues without
a drawn image. -/
theorem apply_all_or_nothing {ε ι φ π : Type}
    (load : Except ε (List π)) (kind : WmKind) (e1 e2 : Except ε ι)
    (draw : π → Except ε π) (reorder : π → π) (layer : WmLayer)
    (f : Int) (toP : Option Int)
    (embedFont : Except ε φ) (drawPn : φ → Nat → π → Except ε π) :
    (∀ e, load = .error e →
      applyWatermarkRun load kind e1 e2 draw reorder layer f toP = none ∧
      applyPageNumbersRun load embedFont drawPn f toP = none) ∧
    (∀ e, embedFont = .error e →
      applyPageNumbersRun load embedFont drawPn f toP = none) ∧
    (∀ pages out, load = .ok pages →
      applyWatermarkRun load kind e1 e2 draw reorder layer f toP = some out →
      out.length = pages.length ∧
        ∀ (j : Nat) (p q : π), pages[j]? = some p → out[j]? = some q →
          targetStep (resolveRange f toP pages.length)
            (fun _ p => wmProcessPage kind (wmEmbedded kind e1 e2) draw reorder layer p)
            j p = .ok q) ∧
    (∀ pages (j : Nat) (p : π) e, load = .ok pages → pages[j]? = some p →
      (j : Int) ∈ resolveRange f toP pages.length →
      wmProcessPage kind (wmEmbedded kind e1 e2) draw reorder layer p = .error e →
      applyWatermarkRun load kind e1 e2 draw reorder layer f toP = none) ∧
    (∀ pages font out, load = .ok pages → embedFont = .ok font →
      applyPageNumbersRun load embedFont drawPn f toP = some out →
      out.length = pages.length ∧
        ∀ (j : Nat) (p q : π), pages[j]? = some p → out[j]? = some q →
          targetStep (pnTargets f toP pages.length) (drawPn font) j p = .ok q) ∧
    (∀ pages font (j : Nat) (p : π) e, load = .ok pages → embedFont = .ok font →
      pages[j]? = some p → (j : Int) ∈ pnTargets f toP pages.length →
      drawPn font j p = .error e →
      applyPageNumbersRun load embedFont drawPn f toP = none) := by
  refine ⟨?_, ?_, ?_, ?_, ?_, ?_⟩
  · intro e he
    subst he
    exact ⟨rfl, rfl⟩
  · intro e he
    cases load with
    | error e0 => rfl
    | ok pages => simp [applyPageNumbersRun, he]
  · intro pages out hl hrun
    subst hl
    simp only [applyWatermarkRun] at hrun
    cases hm : mutatePagesFrom
        (targetStep (resolveRange f toP pages.length)
          (fun _ p => wmProcessPage kind (wmEmbedded kind e1 e2) draw reorder layer p))
        0 pages with
    | error e => rw [hm] at hrun; exact absurd hrun (by simp)
    | ok qs =>
        rw [hm] at hrun
        simp only [Option.some.injEq] at hrun
        subst hrun
        obtain ⟨hlen, hall⟩ := mutatePagesFrom_ok _ pages 0 qs hm
        refine ⟨hlen, ?_⟩
        intro j p q hp hq
        simpa using hall j p q hp hq
  · intro pages j p e hl hp hmem hstep
    subst hl
    have hg : targetStep (resolveRange f toP pages.length)
        (fun _ p => wmProcessPage kind (wmEmbedded kind e1 e2) draw reorder layer p)
        (0 + j) p = .error e := by
      simp only [Nat.zero_add, targetStep, if_pos hmem]
      exact hstep
    obtain ⟨e2, h2⟩ := mutatePagesFrom_error _ pages 0 j p e hp hg
    simp [applyWatermarkRun, h2]
  · intro pages font out hl hf hrun
    subst hl
    simp only [applyPageNumbersRun, hf] at hrun
    cases hm : mutatePagesFrom (targetStep (pnTargets f toP pages.length) (drawPn font))
        0 pages with
    | error e => rw [hm] at hrun; exact absurd hrun (by simp)
    | ok qs =>
        rw [hm] at hrun
        simp only [Option.some.injEq] at hrun
        subst hrun
        obtain ⟨hlen, hall⟩ := mutatePagesFrom_ok _ pages 0 qs hm
        refine ⟨hlen, ?_⟩
        intro j p q hp hq
        simpa using hall j p q hp hq
  · intro pages font j p e hl hf hp hmem hstep
    subst hl
    have hg : targetStep (pnTargets f toP pages.length) (drawPn font) (0 + j) p =
        .error e := by
      simp only [Nat.zero_add, targetStep, if_pos hmem]
      exact hstep
    obtain ⟨e2, h2⟩ := mutatePagesFrom_error _ pages 0 j p e hp hg
    simp [applyPageNumbersRun, hf, h2]

/-- C8 witness: both apply routines fail on a failing document load. -/
theorem apply_all_or_nothing_witness :
    applyWatermarkRun (ε := Unit) (ι := Unit) (π := Nat) (Except.error ()) .text
        (Except.error ()) (Except.error ()) (fun p => Except.ok p) id .over 1 none = none ∧
    applyPageNumbersRun (ε := Unit) (φ := Unit) (π := Nat) (Except.error ())
        (Except.ok ()) (fun _ _ p => Except.ok p) 1 none = none :=
  (apply_all_or_nothing (Except.error ()) .text (Except.error ()) (Except.error ())
    (fun p => Except.ok p) id .over 1 none (Except.ok ())
    (fun _ _ p => Except.ok p)).1 () rfl

/-- C9, claim as stated is refuted: the source conversion performs no
dimension check and silently computes a result for zero and negative page
dimensions instead of failing. -/
theorem geometry_validation_counterexample :
    toDocumentSpace ⟨10, 10, 80, 80⟩ 0 0 = ⟨0, 0, 0, 0⟩ ∧
    toDocumentSpace ⟨10, 10, 80, 80⟩ (-100) (-100) = ⟨-10, -10, -80, -80⟩ := by
  refine ⟨?_, ?_⟩ <;>
    · simp only [toDocumentSpace, Rect.mk.injEq]
      norm_num

/-- C9 (amended): the source conversion validates nothing: for non-positive
page dimensions it still computes the closed-form result, whereas the
spec-modelled checked mapper fails with InvalidGeometry there and agrees
with the source conversion on positive dimensions. -/
theorem geometry_no_validation (r : Rect) (pw ph : ℚ) :
    (0 < pw → 0 < ph →
      toDocumentSpaceChecked r pw ph = .ok (toDocumentSpace r pw ph)) ∧
    (pw ≤ 0 ∨ ph ≤ 0 →
      toDocumentSpaceChecked r pw ph = .error .invalidGeometry ∧
      toDocumentSpace r pw ph =
        ⟨r.x / 100 * pw, ph - r.y / 100 * ph - r.h / 100 * ph,
          r.w / 100 * pw, r.h / 100 * ph⟩) := by
  constructor
  · intro h1 h2
    rw [toDocumentSpaceChecked, if_neg (by push_neg; constructor <;> linarith)]
  · intro h
    exact ⟨by rw [toDocumentSpaceChecked, if_pos h], rfl⟩

/-- C9 witness: a zero-size page is rejected by the checked mapper but
converted by the source conversion. -/
theorem geometry_no_validation_witness :
    toDocumentSpaceChecked ⟨10, 10, 80, 80⟩ 0 0 = .error .invalidGeometry :=
  ((geometry_no_validation ⟨10, 10, 80, 80⟩ 0 0).2 (Or.inl le_rfl)).1

end PdfEditor
